import Mathlib

/-!
# Verification of the postgen backend content-resolution core

Shallow embedding, in Lean 4, of the YouTube content-resolution pipeline of
the `postgen` backend (`backend/app/services/`), together with theorems
settling the frozen claims about it.

Conventions used throughout:
* Python strings are modelled as `String` / `List Char`; Python `str.lower`,
  `str.upper`, `str.strip` are modelled with `Char.toLower` / `Char.toUpper`
  and an explicit whitespace-stripping function (ASCII case mapping, which is
  what the inputs the theorems touch exercise).
* Asynchronous network calls are modelled as oracle inputs: the outcome of
  each upstream call is a parameter of the embedded function, and an
  exception raised by a call is an `Except.error` value.
* Machine integers are `Nat` / `Rat` (Python integers are unbounded; the
  delays computed by the retry helper are exact in binary floating point,
  so `Rat` arithmetic agrees with the source).
-/

set_option autoImplicit false
set_option maxRecDepth 2000

namespace Postgen

/-! ## Platform detection (`ScrapeCreatorsClient.detect_platform`) -/

/-- `needle` occurs as a contiguous substring of `haystack` (character lists). -/
def listInfix (needle : List Char) : List Char → Bool
  | [] => needle.isEmpty
  | c :: rest => needle.isPrefixOf (c :: rest) || listInfix needle rest

/-- Python `needle in haystack` on lowercased text: substring containment
on the character lists. -/
def strContains (haystack needle : String) : Bool :=
  listInfix needle.toList haystack.toList

/-- Python `url.lower()`, ASCII case mapping. -/
def pyLower (s : String) : String :=
  String.mk (s.toList.map Char.toLower)

/-- `ScrapeCreatorsClient.detect_platform` (scrapecreators.py lines 33-69):
lowercase the URL, then test the domain markers in the source's order,
returning at the first hit. -/
def detect_platform (url : String) : String :=
  let u := pyLower url
  if strContains u "instagram.com" || strContains u "instagr.am" then "instagram"
  else if strContains u "tiktok.com" || strContains u "vm.tiktok.com" then "tiktok"
  else if strContains u "youtube.com" || strContains u "youtu.be" ||
          strContains u "youtube.com/shorts" then "youtube"
  else if strContains u "twitter.com" || strContains u "x.com" ||
          strContains u "t.co" then "twitter"
  else if strContains u "linkedin.com" then "linkedin"
  else if strContains u "reddit.com" || strContains u "redd.it" then "reddit"
  else if strContains u "facebook.com" || strContains u "fb.com" ||
          strContains u "fb.watch" then "facebook"
  else if strContains u "threads.net" then "threads"
  else "unknown"

/-- C8: on a plain Reddit URL, which contains the Reddit marker
`"reddit.com"` (and hence also the Twitter marker `"t.co"`, since
`"t.co"` occurs inside `"reddit.com"`), the code returns `"twitter"`,
not `"reddit"`: the marker strings are not disjoint and the Twitter
check runs first. -/
theorem detect_platform_reddit_url_is_twitter :
    strContains (pyLower "https://www.reddit.com/r/python/comments/abc123")
        "reddit.com" = true ∧
    detect_platform "https://www.reddit.com/r/python/comments/abc123" = "twitter" ∧
    detect_platform "https://www.reddit.com/r/python/comments/abc123" ≠ "reddit" := by
  refine ⟨by decide, by decide, by decide⟩

/-! ## Bounded retry with exponential backoff (`retry_async`, retry.py) -/

/-- The loop of `retry_async` (retry.py lines 27-39).  `op k` is the oracle
outcome of the `k`-th attempt (1-indexed, as in the source's
`range(1, max_retries + 1)`); `a` is the current attempt index and the second
argument the number of attempts still available.  The result pairs the final
outcome with the list of back-off delays slept, in order.  The `0` case is
`none`: with no attempts available the source falls through the loop and
re-raises `last_exception = None`. -/
def retryGo {ε α : Type} (op : Nat → Except ε α) (retryOn : ε → Bool) (d : ℚ) :
    Nat → Nat → Option (Except ε α × List ℚ)
  | _, 0 => none
  | a, 1 =>
    some (match op a with
      | .ok v => (.ok v, [])
      | .error e => (.error e, []))
  | a, rem + 2 =>
    match op a with
    | .ok v => some (.ok v, [])
    | .error e =>
      if retryOn e then
        match retryGo op retryOn d (a + 1) (rem + 1) with
        | some (res, ds) => some (res, d * 2 ^ (a - 1) :: ds)
        | none => none
      else some (.error e, [])

/-- `retry_async` (retry.py lines 7-39): run the loop starting at attempt 1
with `max_retries` attempts available. -/
def retry_async {ε α : Type} (op : Nat → Except ε α) (max_retries : Nat)
    (retryOn : ε → Bool) (base_delay : ℚ) : Option (Except ε α × List ℚ) :=
  retryGo op retryOn base_delay 1 max_retries

theorem retryGo_ok {ε α : Type} (op : Nat → Except ε α) (retryOn : ε → Bool)
    (d : ℚ) :
    ∀ rem a j v, 1 ≤ rem → a ≤ j → j < a + rem →
      (∀ k, a ≤ k → k < j → ∃ e, op k = .error e ∧ retryOn e = true) →
      op j = .ok v →
      retryGo op retryOn d a rem =
        some (.ok v, (List.range' a (j - a)).map (fun k => d * 2 ^ (k - 1))) := by
  intro rem
  induction rem with
  | zero => intro a j v h1; omega
  | succ m ih =>
    intro a j v _ haj hlt hfail hok
    match m with
    | 0 =>
      have hja : j = a := by omega
      subst hja
      simp [retryGo, hok]
    | m' + 1 =>
      rcases Nat.eq_or_lt_of_le haj with hja | hja
      · subst hja
        simp [retryGo, hok]
      · obtain ⟨e, he, hre⟩ := hfail a le_rfl hja
        have hrec := ih (a + 1) j v (by omega) (by omega) (by omega)
          (fun k hk1 hk2 => hfail k (by omega) hk2) hok
        have hj : j - a = (j - (a + 1)) + 1 := by omega
        simp [retryGo, he, hre, hrec, hj, List.range'_succ]
theorem retryGo_error_exhaust {ε α : Type} (op : Nat → Except ε α)
    (retryOn : ε → Bool) (d : ℚ) :
    ∀ rem a, 1 ≤ rem →
      (∀ k, a ≤ k → k < a + rem → ∃ e, op k = .error e ∧ retryOn e = true) →
      ∀ e, op (a + rem - 1) = .error e →
      retryGo op retryOn d a rem =
        some (.error e, (List.range' a (rem - 1)).map (fun k => d * 2 ^ (k - 1))) := by
  intro rem
  induction rem with
  | zero => intro a h1; omega
  | succ m ih =>
    intro a _ hfail e hlast
    match m with
    | 0 =>
      have ha : a + 1 - 1 = a := by omega
      rw [ha] at hlast
      simp [retryGo, hlast]
    | m' + 1 =>
      obtain ⟨e0, he0, hre0⟩ := hfail a le_rfl (by omega)
      have hlast' : op ((a + 1) + (m' + 1) - 1) = .error e := by
        have : (a + 1) + (m' + 1) - 1 = a + (m' + 2) - 1 := by omega
        rw [this]; exact hlast
      have hrec := ih (a + 1) (by omega)
        (fun k hk1 hk2 => hfail k (by omega) (by omega)) e hlast'
      have hm : m' + 2 - 1 = (m' + 1 - 1) + 1 := by omega
      simp [retryGo, he0, hre0, hrec, hm, List.range'_succ]
theorem retryGo_error_nonretry {ε α : Type} (op : Nat → Except ε α)
    (retryOn : ε → Bool) (d : ℚ) :
    ∀ rem a j e, 1 ≤ rem → a ≤ j → j < a + rem →
      (∀ k, a ≤ k → k < j → ∃ e2, op k = .error e2 ∧ retryOn e2 = true) →
      op j = .error e → retryOn e = false →
      retryGo op retryOn d a rem =
        some (.error e, (List.range' a (j - a)).map (fun k => d * 2 ^ (k - 1))) := by
  intro rem
  induction rem with
  | zero => intro a j e h1; omega
  | succ m ih =>
    intro a j e _ haj hlt hfail herr hnre
    match m with
    | 0 =>
      have hja : j = a := by omega
      subst hja
      simp [retryGo, herr]
    | m' + 1 =>
      rcases Nat.eq_or_lt_of_le haj with hja | hja
      · subst hja
        simp [retryGo, herr, hnre]
      · obtain ⟨e0, he0, hre0⟩ := hfail a le_rfl hja
        have hrec := ih (a + 1) j e (by omega) (by omega) (by omega)
          (fun k hk1 hk2 => hfail k (by omega) hk2) herr hnre
        have hj : j - a = (j - (a + 1)) + 1 := by omega
        simp [retryGo, he0, hre0, hrec, hj, List.range'_succ]

/-- C3: for every operation oracle, attempt budget `n ≥ 1`, retryable
predicate and base delay `d`, `retry_async` (i) when every attempt fails
retryably, sleeps `d * 2^(k-1)` after the `k`-th failure for `k = 1..n-1`
and propagates the `n`-th failure unchanged; (ii) when the first `j-1`
attempts fail retryably and attempt `j` succeeds, returns that success after
exactly those `j-1` back-offs; (iii) a failure outside the retryable set
propagates immediately, unchanged, with no further attempts consumed. -/
theorem retry_async_spec {ε α : Type} (op : Nat → Except ε α) (n : Nat)
    (retryOn : ε → Bool) (d : ℚ) (hn : 1 ≤ n) :
    ((∀ k, 1 ≤ k → k ≤ n → ∃ e, op k = .error e ∧ retryOn e = true) →
      ∃ e, op n = .error e ∧
        retry_async op n retryOn d =
          some (.error e, (List.range' 1 (n - 1)).map (fun k => d * 2 ^ (k - 1)))) ∧
    (∀ j v, 1 ≤ j → j ≤ n →
      (∀ k, 1 ≤ k → k < j → ∃ e, op k = .error e ∧ retryOn e = true) →
      op j = .ok v →
      retry_async op n retryOn d =
        some (.ok v, (List.range' 1 (j - 1)).map (fun k => d * 2 ^ (k - 1)))) ∧
    (∀ j e, 1 ≤ j → j ≤ n →
      (∀ k, 1 ≤ k → k < j → ∃ e2, op k = .error e2 ∧ retryOn e2 = true) →
      op j = .error e → retryOn e = false →
      retry_async op n retryOn d =
        some (.error e, (List.range' 1 (j - 1)).map (fun k => d * 2 ^ (k - 1)))) := by
  refine ⟨?_, ?_, ?_⟩
  · intro hfail
    obtain ⟨e, he, hre⟩ := hfail n hn le_rfl
    refine ⟨e, he, ?_⟩
    have hlast : op (1 + n - 1) = .error e := by
      have : 1 + n - 1 = n := by omega
      rw [this]; exact he
    exact retryGo_error_exhaust op retryOn d n 1 hn
      (fun k hk1 hk2 => hfail k hk1 (by omega)) e hlast
  · intro j v hj1 hjn hfail hok
    have := retryGo_ok op retryOn d n 1 j v hn hj1 (by omega) hfail hok
    simpa [retry_async] using this
  · intro j e hj1 hjn hfail herr hnre
    have := retryGo_error_nonretry op retryOn d n 1 j e hn hj1 (by omega)
      hfail herr hnre
    simpa [retry_async] using this

/-- Witness for `retry_async_spec`: attempt 1 fails retryably, attempt 2
succeeds, with a budget of 2 attempts and base delay 1: the result is the
success after one back-off of `1 * 2^0`. -/
theorem retry_async_spec_witness :
    (1 : Nat) ≤ 2 ∧
    retry_async (fun k => if k = 1 then Except.error true else Except.ok (7 : Nat)) 2
        (fun b => b) 1 =
      some (.ok 7, (List.range' 1 (2 - 1)).map (fun k => (1 : ℚ) * 2 ^ (k - 1))) := by
  refine ⟨by decide, ?_⟩
  refine (retry_async_spec _ 2 _ 1 (by decide)).2.1 2 7 (by decide) (by decide) ?_ rfl
  intro k h1 h2
  have hk : k = 1 := by omega
  subst hk
  exact ⟨true, rfl, rfl⟩

/-! ## Transcript cleaning and truncation (youtube_transcript.py) -/

/-- Python whitespace over the ASCII range (`\s`, `str.strip`). -/
def isPySpace (c : Char) : Bool :=
  c = ' ' || c = '\t' || c = '\n' || c = '\r' || c = '\x0b' || c = '\x0c'

/-- Case-insensitive character equality (`re.IGNORECASE`, ASCII case map). -/
def ciEq (a b : Char) : Bool := a.toLower == b.toLower

/-- If `pat` is a case-insensitive prefix of `s`, the remainder of `s`
after it. -/
def dropCiPrefix : List Char → List Char → Option (List Char)
  | [], s => some s
  | _ :: _, [] => none
  | p :: ps, c :: cs => if ciEq p c then dropCiPrefix ps cs else none

theorem dropCiPrefix_length_le :
    ∀ (ps s s' : List Char), dropCiPrefix ps s = some s' → s'.length ≤ s.length := by
  intro ps
  induction ps with
  | nil => intro s s' h; simp [dropCiPrefix] at h; simp [h]
  | cons p ps ih =>
    intro s s' h
    match s with
    | [] => simp [dropCiPrefix] at h
    | c :: cs =>
      by_cases hc : ciEq p c = true
      · simp [dropCiPrefix, hc] at h
        have := ih cs s' h
        simp; omega
      · simp [dropCiPrefix, hc] at h

/-- `re.sub(pattern, '', text, flags=re.IGNORECASE)` for the literal
(nonempty) pattern `p :: ps` (youtube_transcript.py lines 46-47): delete
each leftmost occurrence and continue scanning after the deleted match. -/
def removeAll (p : Char) (ps : List Char) : List Char → List Char
  | [] => []
  | c :: rest =>
    if ciEq p c then
      match h : dropCiPrefix ps rest with
      | some rest' => removeAll p ps rest'
      | none => c :: removeAll p ps rest
    else c :: removeAll p ps rest
termination_by l => l.length
decreasing_by
  · have := dropCiPrefix_length_le ps rest rest' h
    simp
    omega
  · simp
  · simp

/-- Dispatch on the (always nonempty) pattern. -/
def removeAllSub (pat : List Char) (s : List Char) : List Char :=
  match pat with
  | [] => s
  | p :: ps => removeAll p ps s

/-- The caption-artifact patterns of `_clean_transcript`
(youtube_transcript.py lines 34-44), in source order. -/
def artifactPatterns : List (List Char) :=
  ["[Music]", "[Applause]", "[Laughter]", "[Background noise]", "[Inaudible]",
   "[Foreign]", "[музыка]", "[аплодисменты]", "[смех]"].map String.toList

/-- The state-machine form of `re.sub(r'\s+', ' ', text)`: the flag records
whether the previous character was whitespace (so the run is already
represented by one space). -/
def collapseGo : List Char → Bool → List Char
  | [], _ => []
  | c :: rest, prevSpace =>
    if isPySpace c then
      if prevSpace then collapseGo rest true else ' ' :: collapseGo rest true
    else c :: collapseGo rest false

def collapseWs (l : List Char) : List Char := collapseGo l false

/-- Python `str.strip()`. -/
def pstrip (l : List Char) : List Char :=
  ((l.dropWhile isPySpace).reverse.dropWhile isPySpace).reverse

/-- `_clean_transcript` (youtube_transcript.py lines 26-53): remove the
artifact patterns in order, collapse whitespace runs to single spaces,
strip. -/
def cleanTranscript (s : List Char) : List Char :=
  pstrip (collapseWs (artifactPatterns.foldl (fun acc pat => removeAllSub pat acc) s))

/-- `text.rsplit(' ', 1)[0]`: everything before the last space, when a
space exists. -/
def beforeLastSpace : List Char → Option (List Char)
  | [] => none
  | c :: rest =>
    match beforeLastSpace rest with
    | some r => some (c :: r)
    | none => if c = ' ' then some [] else none

/-- The marker appended by both transcript tiers. -/
def truncMarker : List Char := "... [transcript truncated]".toList

/-- The truncation step shared by both tiers (youtube_transcript.py lines
179-181 and 248-250): when the cleaned text exceeds 15000 characters, keep
the prefix of the first 15000 characters up to the last space (the whole
15000-character prefix when it contains no space) and append the marker. -/
def truncateTranscript (l : List Char) : List Char :=
  if 15000 < l.length then
    ((beforeLastSpace (l.take 15000)).getD (l.take 15000)) ++ truncMarker
  else l

/-- Lines 172-181 of `_get_transcript_free`: clean the joined segment text,
then truncate. -/
def freeTierFinalText (raw : List Char) : List Char :=
  truncateTranscript (cleanTranscript raw)

/-- Lines 244-250 of `_get_transcript_scrapecreators`: identical cleaning
and truncation of the upstream transcript text. -/
def paidTierFinalText (raw : List Char) : List Char :=
  truncateTranscript (cleanTranscript raw)

theorem beforeLastSpace_eq_none {l : List Char} :
    beforeLastSpace l = none ↔ ' ' ∉ l := by
  induction l with
  | nil => simp [beforeLastSpace]
  | cons c rest ih =>
    simp only [beforeLastSpace]
    cases h : beforeLastSpace rest with
    | some r => simp [h] at ih; simp [ih]
    | none =>
      rw [h] at ih
      by_cases hc : c = ' '
      · simp [hc]
      · simp [hc, ih.mp rfl, Ne.symm hc]

theorem beforeLastSpace_eq_some :
    ∀ {l r : List Char}, beforeLastSpace l = some r →
      ∃ w, l = r ++ ' ' :: w ∧ ' ' ∉ w := by
  intro l
  induction l with
  | nil => intro r h; simp [beforeLastSpace] at h
  | cons c rest ih =>
    intro r h
    simp only [beforeLastSpace] at h
    cases hr : beforeLastSpace rest with
    | some r' =>
      rw [hr] at h
      obtain ⟨w, hw, hmem⟩ := ih hr
      refine ⟨w, ?_, hmem⟩
      simp only [Option.some.injEq] at h
      subst h
      simp [hw]
    | none =>
      rw [hr] at h
      by_cases hc : c = ' '
      · subst hc
        simp at h
        subst h
        exact ⟨rest, by simp, beforeLastSpace_eq_none.mp hr⟩
      · simp [hc] at h

theorem truncMarker_length : truncMarker.length = 26 := by decide

/-- C7 (amended): in both tiers, when the cleaned text exceeds 15000
characters the result is a prefix of the first 15000 characters cut at the
last space (the full 15000-character prefix when no space occurs there),
with the truncation marker appended; the text before the marker is at most
15000 characters, and the whole result at most 15026 characters (the claim's
15000-character output bound does not hold: the 26-character marker is
appended on top of the cut prefix). -/
theorem transcript_truncation_amended (raw : List Char)
    (h : 15000 < (cleanTranscript raw).length) :
    paidTierFinalText raw = freeTierFinalText raw ∧
    ∃ cut, freeTierFinalText raw = cut ++ truncMarker ∧
      cut.length ≤ 15000 ∧
      ((' ' ∉ (cleanTranscript raw).take 15000 ∧
          cut = (cleanTranscript raw).take 15000) ∨
        ∃ w, (cleanTranscript raw).take 15000 = cut ++ ' ' :: w ∧ ' ' ∉ w) ∧
      (freeTierFinalText raw).length ≤ 15026 := by
  refine ⟨rfl, ?_⟩
  have htake : ((cleanTranscript raw).take 15000).length = 15000 := by
    simp [List.length_take]
    omega
  cases hb : beforeLastSpace ((cleanTranscript raw).take 15000) with
  | none =>
    refine ⟨(cleanTranscript raw).take 15000, ?_, by omega, ?_, ?_⟩
    · simp [freeTierFinalText, truncateTranscript, h, hb]
    · exact Or.inl ⟨beforeLastSpace_eq_none.mp hb, rfl⟩
    · simp [freeTierFinalText, truncateTranscript, h, hb, truncMarker_length]
  | some cut =>
    obtain ⟨w, hw, hmem⟩ := beforeLastSpace_eq_some hb
    have hcl : cut.length + 1 + w.length = 15000 := by
      have := congrArg List.length hw
      simp at this
      omega
    refine ⟨cut, ?_, by omega, Or.inr ⟨w, hw, hmem⟩, ?_⟩
    · simp [freeTierFinalText, truncateTranscript, h, hb]
    · simp [freeTierFinalText, truncateTranscript, h, hb, truncMarker_length]
      omega

theorem removeAll_of_ci_head_ne (p : Char) (ps : List Char) :
    ∀ l : List Char, (∀ c ∈ l, ciEq p c = false) → removeAll p ps l = l := by
  intro l
  induction l with
  | nil => simp [removeAll]
  | cons c rest ih =>
    intro hmem
    have hc : ciEq p c = false := hmem c (by simp)
    rw [removeAll]
    simp [hc]
    exact ih (fun x hx => hmem x (by simp [hx]))

theorem artifact_fold_id (l : List Char) (h : ∀ c ∈ l, ciEq '[' c = false) :
    artifactPatterns.foldl (fun acc pat => removeAllSub pat acc) l = l := by
  have key : ∀ pats : List (List Char),
      (∀ pat ∈ pats, ∃ ps, pat = '[' :: ps) →
      pats.foldl (fun acc pat => removeAllSub pat acc) l = l := by
    intro pats
    induction pats with
    | nil => intro _; rfl
    | cons pat rest ih =>
      intro hp
      obtain ⟨ps, hps⟩ := hp pat (by simp)
      have h1 : removeAllSub pat l = l := by
        rw [hps]
        exact removeAll_of_ci_head_ne '[' ps l h
      simp only [List.foldl_cons, h1]
      exact ih (fun q hq => hp q (by simp [hq]))
  refine key artifactPatterns ?_
  have hheads : ∀ pat ∈ artifactPatterns, pat.head? = some '[' := by decide
  intro pat hpat
  match pat, hheads pat hpat with
  | p :: ps, hh => exact ⟨ps, by simp at hh; simp [hh]⟩

theorem collapseGo_of_no_space :
    ∀ (l : List Char) (b : Bool), (∀ c ∈ l, isPySpace c = false) →
      collapseGo l b = l := by
  intro l
  induction l with
  | nil => intro b _; rfl
  | cons c rest ih =>
    intro b hmem
    have hc : isPySpace c = false := hmem c (by simp)
    simp [collapseGo, hc]
    exact ih false (fun x hx => hmem x (by simp [hx]))

theorem pstrip_of_no_space (l : List Char) (h : ∀ c ∈ l, isPySpace c = false) :
    pstrip l = l := by
  have h1 : l.dropWhile isPySpace = l := by
    cases l with
    | nil => rfl
    | cons c rest => simp [List.dropWhile, h c (by simp)]
  rw [pstrip, h1]
  have h2 : l.reverse.dropWhile isPySpace = l.reverse := by
    cases hr : l.reverse with
    | nil => rfl
    | cons c rest =>
      have hc : c ∈ l := by
        have : c ∈ l.reverse := by rw [hr]; simp
        simpa using this
      simp [List.dropWhile, h c hc]
  rw [h2, List.reverse_reverse]

theorem cleanTranscript_id (l : List Char)
    (h : ∀ c ∈ l, isPySpace c = false ∧ ciEq '[' c = false) :
    cleanTranscript l = l := by
  rw [cleanTranscript, artifact_fold_id l (fun c hc => (h c hc).2)]
  rw [collapseWs, collapseGo_of_no_space l false (fun c hc => (h c hc).1)]
  exact pstrip_of_no_space l (fun c hc => (h c hc).1)

/-- C7 (counterexample): a 20000-character space-free transcript is already
clean, exceeds the limit, and both tiers return 15026 characters (the
15000-character prefix plus the 26-character marker) — more than the 15000
characters the claim allows. -/
theorem transcript_truncation_counterexample :
    cleanTranscript (List.replicate 20000 'a') = List.replicate 20000 'a' ∧
    (freeTierFinalText (List.replicate 20000 'a')).length = 15026 ∧
    (paidTierFinalText (List.replicate 20000 'a')).length = 15026 ∧
    ¬ (freeTierFinalText (List.replicate 20000 'a')).length ≤ 15000 := by
  have hmem : ∀ c ∈ List.replicate 20000 'a',
      isPySpace c = false ∧ ciEq '[' c = false := by
    intro c hc
    have := List.eq_of_mem_replicate hc
    subst this
    exact ⟨by decide, by decide⟩
  have hclean := cleanTranscript_id (List.replicate 20000 'a') hmem
  have htake : (List.replicate 20000 'a').take 15000 = List.replicate 15000 'a' := by
    rw [List.take_replicate]
    norm_num
  have hb : beforeLastSpace (List.replicate 15000 'a') = none := by
    rw [beforeLastSpace_eq_none]
    intro hsp
    exact absurd (List.eq_of_mem_replicate hsp) (by decide)
  have hlen : (freeTierFinalText (List.replicate 20000 'a')).length = 15026 := by
    rw [freeTierFinalText, hclean, truncateTranscript]
    rw [if_pos (by rw [List.length_replicate]; norm_num)]
    rw [htake, hb]
    show ((List.replicate 15000 'a') ++ truncMarker).length = 15026
    rw [List.length_append, List.length_replicate, truncMarker_length]
  exact ⟨hclean, hlen, hlen, by omega⟩

/-- Witness for `transcript_truncation_amended` at the 20000-character
space-free transcript. -/
theorem transcript_truncation_amended_witness :
    15000 < (cleanTranscript (List.replicate 20000 'a')).length ∧
    (freeTierFinalText (List.replicate 20000 'a')).length ≤ 15026 := by
  have hmem : ∀ c ∈ List.replicate 20000 'a',
      isPySpace c = false ∧ ciEq '[' c = false := by
    intro c hc
    have := List.eq_of_mem_replicate hc
    subst this
    exact ⟨by decide, by decide⟩
  have h : 15000 < (cleanTranscript (List.replicate 20000 'a')).length := by
    rw [cleanTranscript_id (List.replicate 20000 'a') hmem, List.length_replicate]
    norm_num
  obtain ⟨-, cut, -, -, -, hle⟩ :=
    transcript_truncation_amended (List.replicate 20000 'a') h
  exact ⟨h, hle⟩

/-! ## Free-tier caption-track selection (`_get_transcript_free`) -/

/-- One available caption track, as the caption-track listing service
reports it: a language code and the manual/auto-generated flag. -/
structure CaptionTrack where
  language_code : String
  is_generated : Bool
deriving DecidableEq, Repr

/-- The library's `find_manually_created_transcript` /
`find_generated_transcript`: try the requested language codes in order and
return the first track of the requested origin carrying that code.  The
track collection is modelled as a list in iteration order. -/
def findTrackBy (gen : Bool) (langs : List String) (ts : List CaptionTrack) :
    Option CaptionTrack :=
  langs.findSome?
    (fun lang => ts.find? (fun t => t.is_generated == gen && t.language_code == lang))

/-- The English variants requested by priorities 2 and 5
(youtube_transcript.py lines 116 and 146). -/
def enVariants : List String := ["en", "en-US", "en-GB"]

/-- The six-tier priority cascade of `_get_transcript_free`
(youtube_transcript.py lines 101-166), returning the chosen track and the
language tag reported with it. -/
def selectTrack (ts : List CaptionTrack) : Option (CaptionTrack × String) :=
  match findTrackBy false ["ru"] ts with
  | some t => some (t, "ru")
  | none =>
    match findTrackBy false enVariants ts with
    | some t => some (t, "en")
    | none =>
      match ts.find? (fun t => !t.is_generated) with
      | some t => some (t, t.language_code)
      | none =>
        match findTrackBy true ["ru"] ts with
        | some t => some (t, "ru-auto")
        | none =>
          match findTrackBy true enVariants ts with
          | some t => some (t, "en-auto")
          | none =>
            match ts.find? (fun t => t.is_generated) with
            | some t => some (t, t.language_code ++ "-auto")
            | none => none

theorem findTrackBy_false_eq_none_of_no_manual (langs : List String)
    (ts : List CaptionTrack)
    (h : ts.find? (fun t => !t.is_generated) = none) :
    findTrackBy false langs ts = none := by
  rw [findTrackBy, List.findSome?_eq_none_iff]
  intro lang _
  rw [List.find?_eq_none]
  intro t ht
  have hall := List.find?_eq_none.mp h t ht
  simp at hall
  simp [hall]

/-- C4: the free-tier track selection follows the claimed priority order,
stopping at the first tier with a hit: (a) manual Russian, (b) manual
English variant, (c) first manual track, (d) auto-generated Russian,
(e) auto-generated English variant, (f) first auto-generated track; and on
the claim's two examples, `{manual en, auto ru, auto en}` selects the manual
English track and `{auto ru, auto en}` selects the auto-generated Russian
track. -/
theorem transcript_track_selection (ts : List CaptionTrack) :
    (∀ t, findTrackBy false ["ru"] ts = some t → selectTrack ts = some (t, "ru")) ∧
    (findTrackBy false ["ru"] ts = none →
      ∀ t, findTrackBy false enVariants ts = some t →
      selectTrack ts = some (t, "en") ∧ t ∈ ts ∧ t.is_generated = false ∧
        t.language_code ∈ enVariants) ∧
    (findTrackBy false ["ru"] ts = none → findTrackBy false enVariants ts = none →
      ∀ t, ts.find? (fun t => !t.is_generated) = some t →
      selectTrack ts = some (t, t.language_code)) ∧
    (ts.find? (fun t => !t.is_generated) = none →
      ∀ t, findTrackBy true ["ru"] ts = some t → selectTrack ts = some (t, "ru-auto")) ∧
    (ts.find? (fun t => !t.is_generated) = none → findTrackBy true ["ru"] ts = none →
      ∀ t, findTrackBy true enVariants ts = some t →
      selectTrack ts = some (t, "en-auto") ∧ t ∈ ts ∧ t.is_generated = true ∧
        t.language_code ∈ enVariants) ∧
    (ts.find? (fun t => !t.is_generated) = none → findTrackBy true ["ru"] ts = none →
      findTrackBy true enVariants ts = none →
      ∀ t, ts.find? (fun t => t.is_generated) = some t →
      selectTrack ts = some (t, t.language_code ++ "-auto")) ∧
    selectTrack [⟨"en", false⟩, ⟨"ru", true⟩, ⟨"en", true⟩] =
      some (⟨"en", false⟩, "en") ∧
    selectTrack [⟨"ru", true⟩, ⟨"en", true⟩] = some (⟨"ru", true⟩, "ru-auto") := by
  refine ⟨?_, ?_, ?_, ?_, ?_, ?_, by decide, by decide⟩
  · intro t h1
    simp [selectTrack, h1]
  · intro h1 t h2
    obtain ⟨lang, hlang, hfind⟩ := List.exists_of_findSome?_eq_some h2
    have hmem := List.mem_of_find?_eq_some hfind
    have hpred := List.find?_some hfind
    simp at hpred
    refine ⟨by simp [selectTrack, h1, h2], hmem, hpred.1, ?_⟩
    rw [hpred.2]
    exact hlang
  · intro h1 h2 t h3
    simp [selectTrack, h1, h2, h3]
  · intro h3 t h4
    have h1 := findTrackBy_false_eq_none_of_no_manual ["ru"] ts h3
    have h2 := findTrackBy_false_eq_none_of_no_manual enVariants ts h3
    simp [selectTrack, h1, h2, h3, h4]
  · intro h3 h4 t h5
    have h1 := findTrackBy_false_eq_none_of_no_manual ["ru"] ts h3
    have h2 := findTrackBy_false_eq_none_of_no_manual enVariants ts h3
    obtain ⟨lang, hlang, hfind⟩ := List.exists_of_findSome?_eq_some h5
    have hmem := List.mem_of_find?_eq_some hfind
    have hpred := List.find?_some hfind
    simp at hpred
    refine ⟨by simp [selectTrack, h1, h2, h3, h4, h5], hmem, hpred.1, ?_⟩
    rw [hpred.2]
    exact hlang
  · intro h3 h4 h5 t h6
    have h1 := findTrackBy_false_eq_none_of_no_manual ["ru"] ts h3
    have h2 := findTrackBy_false_eq_none_of_no_manual enVariants ts h3
    simp [selectTrack, h1, h2, h3, h4, h5, h6]

/-- Witness for `transcript_track_selection`: on
`{manual en, auto ru, auto en}` tier (b) fires and returns the manual
English track. -/
theorem transcript_track_selection_witness :
    findTrackBy false ["ru"] [⟨"en", false⟩, ⟨"ru", true⟩, ⟨"en", true⟩] = none ∧
    selectTrack [⟨"en", false⟩, ⟨"ru", true⟩, ⟨"en", true⟩] =
      some (⟨"en", false⟩, "en") := by
  refine ⟨by decide, ?_⟩
  exact ((transcript_track_selection
    [⟨"en", false⟩, ⟨"ru", true⟩, ⟨"en", true⟩]).2.1 (by decide)
    ⟨"en", false⟩ (by decide)).1

/-! ## Vision-reply parsing and frame analysis (youtube_frames.py) -/

/-- Python `text.split("\n")`: split on newlines, keeping empty pieces. -/
def splitLines : List Char → List (List Char)
  | [] => [[]]
  | c :: rest =>
    if c = '\n' then [] :: splitLines rest
    else
      match splitLines rest with
      | [] => [[c]]
      | l :: ls => (c :: l) :: ls

/-- `line.upper().startswith(marker)` for a 6-character marker (ASCII case
map). -/
def upperStarts (l marker : List Char) : Bool :=
  (l.take marker.length).map Char.toUpper == marker

def sceneMarker : List Char := "SCENE:".toList

def styleMarker : List Char := "STYLE:".toList

/-- The stripped line starts (case-insensitively) with the marker. -/
def isMarkerLine (marker line : List Char) : Bool :=
  upperStarts (pstrip line) marker

/-- `line[6:].strip()` applied to the stripped line. -/
def linePayload (line : List Char) : List Char :=
  pstrip ((pstrip line).drop 6)

/-- The body of the parsing loop (youtube_frames.py lines 187-192): a
`SCENE:` line overwrites the scene accumulator, a `STYLE:` line the style
accumulator. -/
def parseStep (acc : Option (List Char) × Option (List Char)) (line : List Char) :
    Option (List Char) × Option (List Char) :=
  if isMarkerLine sceneMarker line then (some (linePayload line), acc.2)
  else if isMarkerLine styleMarker line then (acc.1, some (linePayload line))
  else acc

/-- The parsing of the vision model's reply (youtube_frames.py lines
183-192): strip the reply, split into lines, and run the loop starting from
`(None, None)`. -/
def parseReply (reply : List Char) : Option (List Char) × Option (List Char) :=
  (splitLines (pstrip reply)).foldl parseStep (none, none)

/-- The payload of the LAST marker line of the reply, if any. -/
def lastMarkerPayload (marker reply : List Char) : Option (List Char) :=
  ((splitLines (pstrip reply)).filter (isMarkerLine marker)).getLast?.map linePayload

theorem isMarkerLine_scene_not_style (line : List Char)
    (h : isMarkerLine sceneMarker line = true) :
    isMarkerLine styleMarker line = false := by
  by_contra hc
  rw [Bool.not_eq_false] at hc
  rw [isMarkerLine, upperStarts] at h hc
  rw [beq_iff_eq] at h hc
  have : sceneMarker = styleMarker := by
    rw [← h]
    have hlen : sceneMarker.length = styleMarker.length := by decide
    rw [hlen]
    exact hc
  exact absurd this (by decide)

theorem parse_foldl (ls : List (List Char)) :
    ∀ acc, ls.foldl parseStep acc =
      ((((ls.filter (isMarkerLine sceneMarker)).getLast?).map linePayload).or acc.1,
       (((ls.filter (isMarkerLine styleMarker)).getLast?).map linePayload).or acc.2) := by
  induction ls with
  | nil => intro acc; simp
  | cons x xs ih =>
    intro acc
    rw [List.foldl_cons, ih]
    by_cases hsc : isMarkerLine sceneMarker x = true
    · have hst := isMarkerLine_scene_not_style x hsc
      rw [List.filter_cons, List.filter_cons, if_pos hsc, if_neg (by simp [hst])]
      rw [List.getLast?_cons]
      cases hl : (xs.filter (isMarkerLine sceneMarker)).getLast? with
      | some line => simp [parseStep, hsc, hl]
      | none => simp [parseStep, hsc, hst, hl]
    · by_cases hst : isMarkerLine styleMarker x = true
      · rw [List.filter_cons, List.filter_cons, if_neg (by simp [hsc]), if_pos hst]
        rw [List.getLast?_cons]
        cases hl : (xs.filter (isMarkerLine styleMarker)).getLast? with
        | some line => simp [parseStep, hsc, hst, hl]
        | none => simp [parseStep, hsc, hst, hl]
      · rw [List.filter_cons, List.filter_cons,
          if_neg (by simp [hsc]), if_neg (by simp [hst])]
        simp [parseStep, hsc, hst]

/-- C9 (amended): the parser sets the scene description from the LAST line
starting (case-insensitively) with `SCENE:` and the style description from
the LAST line starting with `STYLE:` (each marker line overwrites the
previous value); when a marker is absent from the reply the corresponding
field is absent. -/
theorem frame_reply_parsing_amended (reply : List Char) :
    parseReply reply =
      (lastMarkerPayload sceneMarker reply, lastMarkerPayload styleMarker reply) ∧
    ((splitLines (pstrip reply)).filter (isMarkerLine sceneMarker) = [] →
      (parseReply reply).1 = none) ∧
    ((splitLines (pstrip reply)).filter (isMarkerLine styleMarker) = [] →
      (parseReply reply).2 = none) := by
  have hmain : parseReply reply =
      (lastMarkerPayload sceneMarker reply, lastMarkerPayload styleMarker reply) := by
    rw [parseReply, parse_foldl, lastMarkerPayload, lastMarkerPayload]
    simp
  refine ⟨hmain, ?_, ?_⟩
  · intro hnil
    rw [hmain]
    simp [lastMarkerPayload, hnil]
  · intro hnil
    rw [hmain]
    simp [lastMarkerPayload, hnil]

/-- Witness for `frame_reply_parsing_amended`: a reply with a `SCENE:` line
but no `STYLE:` line leaves the style field absent. -/
theorem frame_reply_parsing_amended_witness :
    (splitLines (pstrip ("SCENE: a cat".toList))).filter (isMarkerLine styleMarker) = [] ∧
    (parseReply ("SCENE: a cat".toList)).2 = none := by
  refine ⟨by decide, ?_⟩
  exact (frame_reply_parsing_amended ("SCENE: a cat".toList)).2.2 (by decide)

/-- C9 (counterexample): with two `SCENE:` lines the parser returns the
last one's payload, not the first's as the claim states. -/
theorem frame_reply_parsing_counterexample :
    (parseReply ("SCENE: first\nSCENE: second".toList)).1 = some ("second".toList) ∧
    (parseReply ("SCENE: first\nSCENE: second".toList)).1 ≠ some ("first".toList) := by
  constructor
  · decide
  · decide

/-- The final outcome of `fetch_thumbnail_as_base64` (youtube_frames.py
lines 23-55) for one thumbnail position: `content` is the HTTP response
body when a response was eventually obtained (`none` when the fetch,
retries included, failed); a body smaller than 1000 bytes is the "no
thumbnail at this position" placeholder and yields `none`.  The base64
packaging of the kept bytes is elided (it is a bijective re-encoding the
claims do not touch), so the frame payload is the byte list itself. -/
def fetchThumb (content : Option (List Nat)) : Option (List Nat) :=
  match content with
  | none => none
  | some bytes => if bytes.length < 1000 then none else some bytes

/-- `analyze_youtube_frames`'s result dictionary. -/
structure FrameResult where
  scene_description : Option (List Char)
  style_description : Option (List Char)
  frames_analyzed : Nat
deriving DecidableEq, Repr

/-- `analyze_youtube_frames` (youtube_frames.py lines 58-213), with the
outcomes of the three thumbnail fetches and of the (retried) vision call
supplied by the oracle.  Returns the result dictionary together with the
list of frame payloads included in the vision call (empty when no call is
made).  An errored vision call still reports `frames_analyzed` as the
number of surviving frames (lines 200-213). -/
def analyze_youtube_frames (openaiKey : String) (t1 t2 t3 : Option (List Nat))
    (vision : Except String (List Char)) : FrameResult × List (List Nat) :=
  if openaiKey = "" then (⟨none, none, 0⟩, [])
  else
    let frames := [t1, t2, t3].filterMap fetchThumb
    if frames = [] then (⟨none, none, 0⟩, [])
    else
      match vision with
      | .error _ => (⟨none, none, frames.length⟩, frames)
      | .ok reply =>
        let parsed := parseReply reply
        (⟨parsed.1, parsed.2, frames.length⟩, frames)

/-- C5: every fetched thumbnail body smaller than 1000 bytes is discarded —
the vision payload holds only bodies of at least 1000 bytes and
`frames_analyzed` counts exactly the surviving fetches; with no credential
or no surviving thumbnail the result is empty with `frames_analyzed = 0`
and no vision payload; and on an irrecoverable vision failure the result is
empty but `frames_analyzed` equals the number of thumbnails successfully
fetched (and kept) before the failure. -/
theorem frame_analysis_spec (key : String) (t1 t2 t3 : Option (List Nat))
    (vision : Except String (List Char)) :
    (∀ b ∈ (analyze_youtube_frames key t1 t2 t3 vision).2, 1000 ≤ b.length) ∧
    ((analyze_youtube_frames key t1 t2 t3 vision).1.frames_analyzed =
      if key = "" then 0 else ([t1, t2, t3].filterMap fetchThumb).length) ∧
    ((key = "" ∨ [t1, t2, t3].filterMap fetchThumb = []) →
      analyze_youtube_frames key t1 t2 t3 vision = (⟨none, none, 0⟩, [])) ∧
    (∀ e, vision = .error e → ¬ key = "" → ¬ [t1, t2, t3].filterMap fetchThumb = [] →
      analyze_youtube_frames key t1 t2 t3 vision =
        (⟨none, none, ([t1, t2, t3].filterMap fetchThumb).length⟩,
          [t1, t2, t3].filterMap fetchThumb)) := by
  have hpay : ∀ b ∈ [t1, t2, t3].filterMap fetchThumb, 1000 ≤ b.length := by
    intro b hb
    rw [List.mem_filterMap] at hb
    obtain ⟨o, _, ho⟩ := hb
    match o with
    | none => simp [fetchThumb] at ho
    | some bytes =>
      rw [fetchThumb] at ho
      by_cases hlt : bytes.length < 1000
      · simp [hlt] at ho
      · rw [if_neg hlt] at ho
        simp at ho
        subst ho
        omega
  refine ⟨?_, ?_, ?_, ?_⟩
  · by_cases hk : key = ""
    · simp [analyze_youtube_frames, hk]
    · by_cases hf : [t1, t2, t3].filterMap fetchThumb = []
      · simp [analyze_youtube_frames, hk, hf]
      · intro b hb
        refine hpay b ?_
        rcases vision with e | reply
        · simpa [analyze_youtube_frames, hk, hf] using hb
        · simpa [analyze_youtube_frames, hk, hf] using hb
  · by_cases hk : key = ""
    · simp [analyze_youtube_frames, hk]
    · by_cases hf : [t1, t2, t3].filterMap fetchThumb = []
      · simp [analyze_youtube_frames, hk, hf]
      · rcases vision with e | reply
        · simp [analyze_youtube_frames, hk, hf]
        · simp [analyze_youtube_frames, hk, hf]
  · rintro (hk | hf)
    · simp [analyze_youtube_frames, hk]
    · by_cases hk : key = ""
      · simp [analyze_youtube_frames, hk]
      · simp [analyze_youtube_frames, hk, hf]
  · intro e hv hk hf
    subst hv
    simp [analyze_youtube_frames, hk, hf]

/-- Witness for `frame_analysis_spec`: one 1000-byte thumbnail survives,
the other two positions fail to fetch, and the vision call fails: the
result is empty with `frames_analyzed = 1`. -/
theorem frame_analysis_spec_witness :
    (¬ ("k" : String) = "") ∧
    analyze_youtube_frames "k" (some (List.replicate 1000 7)) none none
        (.error "boom") =
      (⟨none, none, 1⟩, [List.replicate 1000 7]) := by
  have h1 : fetchThumb (some (List.replicate 1000 (7 : Nat))) =
      some (List.replicate 1000 7) := by
    rw [fetchThumb]
    simp only [List.length_replicate]
    rw [if_neg (lt_irrefl 1000)]
  have hf : [some (List.replicate 1000 (7 : Nat)), none, none].filterMap fetchThumb =
      [List.replicate 1000 7] := by
    have h0 : fetchThumb none = none := rfl
    simp only [List.filterMap_cons, List.filterMap_nil, h1, h0]
  have hk : ¬ ("k" : String) = "" := by decide
  refine ⟨hk, ?_⟩
  have hne : ¬ [some (List.replicate 1000 (7 : Nat)), none, none].filterMap fetchThumb
      = [] := by
    rw [hf]
    exact List.cons_ne_nil _ _
  have hmain := (frame_analysis_spec "k" (some (List.replicate 1000 7)) none none
    (.error "boom")).2.2.2 "boom" rfl hk hne
  rw [hf] at hmain
  rw [show ([List.replicate 1000 (7 : Nat)] : List (List Nat)).length = 1 from rfl]
    at hmain
  exact hmain

/-! ## Video-id extraction and ISO-8601 duration parsing -/

/-- The regex class `[a-zA-Z0-9_-]`. -/
def isIdChar (c : Char) : Bool :=
  c.isAlpha || c.isDigit || c = '_' || c = '-'

/-- At the current position, match the literal alternative `pre` followed by
exactly 11 id characters (the regex `pre([a-zA-Z0-9_-]{11})`), returning the
captured token. -/
def matchIdAt (pre : List Char) (s : List Char) : Option (List Char) :=
  if pre.isPrefixOf s then
    let rest := s.drop pre.length
    if 11 ≤ rest.length && (rest.take 11).all isIdChar then some (rest.take 11)
    else none
  else none

/-- `re.search` for an alternation of literal-prefix patterns: scan
positions left to right, trying the alternatives in order at each
position. -/
def searchPat (pres : List (List Char)) : List Char → Option (List Char)
  | [] => pres.findSome? (fun pre => matchIdAt pre [])
  | c :: rest =>
    match pres.findSome? (fun pre => matchIdAt pre (c :: rest)) with
    | some tok => some tok
    | none => searchPat pres rest

/-- `ScrapeCreatorsClient.extract_youtube_video_id` (scrapecreators.py lines
85-98): the first regex alternates watch/youtu.be/shorts, the second is
embed; the patterns are tried in order over the raw URL. -/
def extract_youtube_video_id (url : String) : Option String :=
  match searchPat
      (["youtube.com/watch?v=", "youtu.be/", "youtube.com/shorts/"].map String.toList)
      url.toList with
  | some tok => some (String.mk tok)
  | none =>
    (searchPat (["youtube.com/embed/"].map String.toList) url.toList).map String.mk

/-- `extract_video_id` (youtube_api.py lines 47-71): one regex with five
alternatives. -/
def extract_video_id (url : String) : Option String :=
  (searchPat
    (["youtube.com/watch?v=", "youtu.be/", "youtube.com/shorts/",
      "youtube.com/embed/", "youtube.com/v/"].map String.toList)
    url.toList).map String.mk

def digitVal (c : Char) : Nat := c.toNat - 48

/-- The `finditer` scans of `parse_iso8601_duration` (youtube_api.py lines
104-128): accumulate maximal digit runs and, when the next character is a
recognized unit, add the run's value times the unit's multiplier. -/
def scanUnits (units : Char → Option Nat) : List Char → Option Nat → Nat
  | [], _ => 0
  | c :: rest, pending =>
    if c.isDigit then scanUnits units rest (some ((pending.getD 0) * 10 + digitVal c))
    else
      match pending, units c with
      | some v, some mult => v * mult + scanUnits units rest none
      | _, _ => scanUnits units rest none

/-- Date-segment units: `D`, `W`, and the 30-day / 365-day approximations
for `M` and `Y`. -/
def dateUnit : Char → Option Nat
  | 'D' => some 86400
  | 'W' => some 604800
  | 'M' => some 2592000
  | 'Y' => some 31536000
  | _ => none

/-- Time-segment units. -/
def timeUnit : Char → Option Nat
  | 'H' => some 3600
  | 'M' => some 60
  | 'S' => some 1
  | _ => none

/-- Split at the first `'T'` (video ISO durations carry at most one `T`;
`duration.split('T')` unpacks into exactly the date and time segments). -/
def splitFirstT : List Char → List Char × List Char
  | [] => ([], [])
  | c :: rest =>
    if c = 'T' then ([], rest)
    else
      let (d, t) := splitFirstT rest
      (c :: d, t)

/-- `parse_iso8601_duration` (youtube_api.py lines 74-130). -/
def parse_iso8601_duration (s : String) : Nat :=
  let l := s.toList
  if l.head? = some 'P' then
    let body := l.tail
    let parts := if 'T' ∈ body then splitFirstT body else (body, [])
    scanUnits dateUnit parts.1 none + scanUnits timeUnit parts.2 none
  else 0

/-! ## The YouTube orchestrator (`ScrapeCreatorsClient.analyze_youtube`) -/

/-- `YouTubeMetadata` (youtube_api.py lines 31-44). -/
structure YTMeta where
  video_id : String
  title : String
  description : String
  thumbnail_url : String
  duration_seconds : Nat
  views : Nat
  likes : Nat
  comments : Nat
  channel_name : String
  channel_id : String
  published_at : String
deriving DecidableEq, Repr

/-- The `duration` field of the ScrapeCreators `/youtube/video` payload:
seconds as an integer, or an ISO-8601 string (scrapecreators.py lines
283-290). -/
inductive DurVal where
  | secs (n : Nat)
  | iso (s : String)
deriving DecidableEq, Repr

/-- The fields `analyze_youtube` reads from the ScrapeCreators
`/youtube/video` payload (scrapecreators.py lines 275-290); `channelTitle`
is the resolved author string (`channelTitle` or the nested channel
name). -/
structure ScrapeVideoData where
  title : String
  description : String
  thumbnail : String
  channelTitle : String
  views : Nat
  likes : Nat
  comments : Nat
  duration : DurVal
deriving DecidableEq, Repr

/-- Duration normalization of the fallback payload (scrapecreators.py lines
284-290). -/
def scrapeDuration : DurVal → Nat
  | .secs n => n
  | .iso s => parse_iso8601_duration s

/-- Failure categories of an upstream HTTP call (§7 error taxonomy). -/
inductive FailKind where
  | timeout
  | connect
  | httpStatus (code : Nat)
  | other
deriving DecidableEq, Repr

/-- A transient network failure in the sense of the spec's taxonomy
(timeout, connection failure, 5xx). -/
def isTransient : FailKind → Bool
  | .timeout => true
  | .connect => true
  | .httpStatus c => 500 ≤ c && c < 600
  | .other => false

structure UpFailure where
  msg : String
  kind : FailKind
deriving DecidableEq, Repr

/-- The network-visible stages of one `analyze_youtube` run, in execution
order: the official-API lookup, a ScrapeCreators `/youtube/video` metadata
attempt, the transcript stage, the frame-analysis stage. -/
inductive YTEvent where
  | officialCall
  | scrapeMetaCall
  | transcriptStage
  | framesStage
deriving DecidableEq, BEq, Repr

/-- The oracle for one `analyze_youtube` run: the configured credential and
the outcomes of each upstream interaction.  `officialApi` is the outcome of
the single `videos().list` call (`none` for any failure — `get_youtube_metadata`
catches every exception and returns `None`); `scrapeMeta k` the outcome of
the `k`-th `GET /youtube/video` attempt; the last two the outcomes of
`get_youtube_transcript` and `analyze_youtube_frames` (an `Except.error`
models the stage raising). -/
structure YTWorld where
  youtube_api_key : String
  officialApi : Option YTMeta
  scrapeMeta : Nat → Except UpFailure ScrapeVideoData
  transcriptOutcome : Except String (Option String × Option String)
  framesOutcome : Except String FrameResult

/-- `get_youtube_metadata` (youtube_api.py lines 133-222), paired with the
official-API calls it performs: no call when the credential is empty or no
video id is extractable. -/
def get_youtube_metadata (w : YTWorld) (url : String) :
    Option YTMeta × List YTEvent :=
  if w.youtube_api_key = "" then (none, [])
  else
    match extract_video_id url with
    | none => (none, [])
    | some _ => (w.officialApi, [.officialCall])

/-- `ScrapeCreatorsClient.detect_youtube_type` (scrapecreators.py lines
79-83). -/
def detect_youtube_type (url : String) : String :=
  if strContains (pyLower url) "/shorts/" then "short" else "video"

/-- The record `analyze_youtube` returns: `none` in an `Option` field
models the key being absent from the returned dictionary (the failure
record carries only success/platform/content_type/error/source_url). -/
structure YTRecord where
  success : Bool
  platform : String
  content_type : String
  error : Option String
  has_image : Option Bool
  has_video : Option Bool
  post_text : Option String
  narrative : Option String
  title : Option String
  image_url : Option String
  video_url : Option String
  video_duration_minutes : Option ℚ
  likes : Option Nat
  comments : Option Nat
  views : Option Nat
  author : Option String
  source_url : String
  is_short : Option Bool
  transcript : Option String
  transcript_language : Option String
  scene_description : Option (List Char)
  style_description : Option (List Char)
  metadata_source : Option String
deriving DecidableEq, Repr

/-- Python truthiness of the optional transcript string. -/
def truthy (o : Option String) : Bool :=
  match o with
  | none => false
  | some s => !(s = "")

/-- Steps 2-5 of `analyze_youtube` (scrapecreators.py lines 292-354), run
once metadata is resolved: absorb any transcript failure (lines 296-303),
compute the narrative (lines 305-310), absorb any frame-analysis failure
(lines 312-324, gated on an extractable video id), and assemble the
`success=True` record. -/
def assembleSuccess (w : YTWorld) (url : String) (is_short : Bool)
    (metadata_source : String) (title description thumbnail author : String)
    (views likes comments duration_seconds : Nat) (ev : List YTEvent) :
    YTRecord × List YTEvent :=
  let duration_minutes : Option ℚ :=
    if duration_seconds = 0 then none else some ((duration_seconds : ℚ) / 60)
  let tr : Option String × Option String :=
    match w.transcriptOutcome with
    | .ok p => p
    | .error _ => (none, none)
  let narrative : String :=
    match tr.1 with
    | some s => if s = "" then description else s
    | none => description
  let framesRun : Bool := (extract_youtube_video_id url).isSome
  let fr : Option (List Char) × Option (List Char) :=
    if framesRun then
      match w.framesOutcome with
      | .ok r => (r.scene_description, r.style_description)
      | .error _ => (none, none)
    else (none, none)
  ({ success := true, platform := "youtube", content_type := "video",
     error := none,
     has_image := some (!(thumbnail = "")),
     has_video := some true,
     post_text := some description,
     narrative := some narrative,
     title := some title,
     image_url := some thumbnail,
     video_url := some url,
     video_duration_minutes := duration_minutes,
     likes := some likes, comments := some comments, views := some views,
     author := some author, source_url := url, is_short := some is_short,
     transcript := tr.1, transcript_language := tr.2,
     scene_description := fr.1, style_description := fr.2,
     metadata_source := some metadata_source },
   ev ++ [.transcriptStage] ++ (if framesRun then [.framesStage] else []))

/-- The minimal failure response of scrapecreators.py lines 266-273: only
success/platform/content_type/error/source_url are present. -/
def failureRecord (url msg : String) : YTRecord :=
  { success := false, platform := "youtube", content_type := "video",
    error := some msg, source_url := url,
    has_image := none, has_video := none, post_text := none,
    narrative := none, title := none, image_url := none,
    video_url := none, video_duration_minutes := none, likes := none,
    comments := none, views := none, author := none, is_short := none,
    transcript := none, transcript_language := none,
    scene_description := none, style_description := none,
    metadata_source := none }

/-- `ScrapeCreatorsClient.analyze_youtube` (scrapecreators.py lines
223-354): resolve metadata via the official API, fall back to one
ScrapeCreators call, return the failure record immediately when the
fallback raises, and otherwise run the enrichment stages and assemble the
success record. -/
def analyze_youtube (w : YTWorld) (url : String) : YTRecord × List YTEvent :=
  let is_short := detect_youtube_type url == "short"
  match get_youtube_metadata w url with
  | (some m, ev0) =>
    assembleSuccess w url is_short "youtube_api" m.title m.description
      m.thumbnail_url m.channel_name m.views m.likes m.comments
      m.duration_seconds ev0
  | (none, ev0) =>
    match w.scrapeMeta 1 with
    | .error e => (failureRecord url e.msg, ev0 ++ [.scrapeMetaCall])
    | .ok d =>
      assembleSuccess w url is_short "scrapecreators" d.title d.description
        d.thumbnail d.channelTitle d.views d.likes d.comments
        (scrapeDuration d.duration) (ev0 ++ [.scrapeMetaCall])

theorem assembleSuccess_success (w : YTWorld) (url : String) (is_short : Bool)
    (ms title description thumbnail author : String)
    (views likes comments ds : Nat) (ev : List YTEvent) :
    (assembleSuccess w url is_short ms title description thumbnail author
      views likes comments ds ev).1.success = true := rfl

theorem assembleSuccess_source (w : YTWorld) (url : String) (is_short : Bool)
    (ms title description thumbnail author : String)
    (views likes comments ds : Nat) (ev : List YTEvent) :
    (assembleSuccess w url is_short ms title description thumbnail author
      views likes comments ds ev).1.metadata_source = some ms := rfl

theorem assembleSuccess_events (w : YTWorld) (url : String) (is_short : Bool)
    (ms title description thumbnail author : String)
    (views likes comments ds : Nat) (ev : List YTEvent) :
    (assembleSuccess w url is_short ms title description thumbnail author
      views likes comments ds ev).2 =
      ev ++ [.transcriptStage] ++
        (if (extract_youtube_video_id url).isSome then [.framesStage] else []) := rfl

theorem analyze_youtube_meta_some {w : YTWorld} {url : String} {m : YTMeta}
    {ev0 : List YTEvent} (h : get_youtube_metadata w url = (some m, ev0)) :
    analyze_youtube w url =
      assembleSuccess w url (detect_youtube_type url == "short") "youtube_api"
        m.title m.description m.thumbnail_url m.channel_name m.views m.likes
        m.comments m.duration_seconds ev0 := by
  simp only [analyze_youtube, h]

theorem analyze_youtube_meta_none_error {w : YTWorld} {url : String}
    {e : UpFailure} {ev0 : List YTEvent}
    (h : get_youtube_metadata w url = (none, ev0)) (hs : w.scrapeMeta 1 = .error e) :
    analyze_youtube w url = (failureRecord url e.msg, ev0 ++ [.scrapeMetaCall]) := by
  simp only [analyze_youtube, h, hs]

theorem analyze_youtube_meta_none_ok {w : YTWorld} {url : String}
    {d : ScrapeVideoData} {ev0 : List YTEvent}
    (h : get_youtube_metadata w url = (none, ev0)) (hs : w.scrapeMeta 1 = .ok d) :
    analyze_youtube w url =
      assembleSuccess w url (detect_youtube_type url == "short") "scrapecreators"
        d.title d.description d.thumbnail d.channelTitle d.views d.likes
        d.comments (scrapeDuration d.duration) (ev0 ++ [.scrapeMetaCall]) := by
  simp only [analyze_youtube, h, hs]

theorem get_youtube_metadata_events (w : YTWorld) (url : String) :
    (get_youtube_metadata w url).2 = [] ∨
      (get_youtube_metadata w url).2 = [YTEvent.officialCall] := by
  rw [get_youtube_metadata]
  by_cases hk : w.youtube_api_key = ""
  · simp [hk]
  · cases hx : extract_video_id url <;> simp [hk, hx]

theorem ytevent_beq (x y : YTEvent) : (x == y) = decide (x = y) := by
  cases x <;> cases y <;> rfl

/-- C1: the returned record has `success = false` exactly when the official
tier yields nothing and the ScrapeCreators fallback raises; in that case
the record carries the failure's message and neither the transcript stage
nor the frame stage is run; and whenever either metadata tier succeeds the
record has `success = true` — for every outcome of the transcript and
frame stages, including raising ones, so an enrichment failure never aborts
the request and never turns a success record into a failure one. -/
theorem analyze_youtube_failure_semantics (w : YTWorld) (url : String) :
    ((analyze_youtube w url).1.success = false ↔
      ((get_youtube_metadata w url).1 = none ∧ ∃ e, w.scrapeMeta 1 = .error e)) ∧
    (∀ e, (get_youtube_metadata w url).1 = none → w.scrapeMeta 1 = .error e →
      (analyze_youtube w url).1.error = some e.msg) ∧
    (∀ e, (get_youtube_metadata w url).1 = none → w.scrapeMeta 1 = .error e →
      YTEvent.transcriptStage ∉ (analyze_youtube w url).2 ∧
      YTEvent.framesStage ∉ (analyze_youtube w url).2) ∧
    (((get_youtube_metadata w url).1 ≠ none ∨ (∃ d, w.scrapeMeta 1 = .ok d)) →
      (analyze_youtube w url).1.success = true) := by
  rcases hgm : get_youtube_metadata w url with ⟨mo, ev0⟩
  have hev2 : ev0 = [] ∨ ev0 = [YTEvent.officialCall] := by
    have := get_youtube_metadata_events w url
    rw [hgm] at this
    simpa using this
  cases mo with
  | some m =>
    have hrec := analyze_youtube_meta_some hgm
    have hsucc : (analyze_youtube w url).1.success = true := by
      rw [hrec, assembleSuccess_success]
    refine ⟨?_, ?_, ?_, fun _ => hsucc⟩
    · rw [hsucc]
      simp
    · intro e hnone
      simp at hnone
    · intro e hnone
      simp at hnone
  | none =>
    cases hs : w.scrapeMeta 1 with
    | error e =>
      have hrec := analyze_youtube_meta_none_error hgm hs
      refine ⟨?_, ?_, ?_, ?_⟩
      · rw [hrec]
        simp [failureRecord]
      · intro e2 _ hs2
        simp at hs2
        subst hs2
        rw [hrec]
        rfl
      · intro e2 _ _
        rw [hrec]
        rcases hev2 with h0 | h0 <;> subst h0 <;> simp
      · rintro (hne | ⟨d, hd⟩)
        · simp at hne
        · simp at hd
    | ok d =>
      have hrec := analyze_youtube_meta_none_ok hgm hs
      have hsucc : (analyze_youtube w url).1.success = true := by
        rw [hrec, assembleSuccess_success]
      refine ⟨?_, ?_, ?_, fun _ => hsucc⟩
      · rw [hsucc]
        simp
      · intro e _ hs2
        simp at hs2
      · intro e _ hs2
        simp at hs2

/-- C2 (amended): when the official credential is unconfigured no
official-API call is made and, when the fallback succeeds, the record's
metadata-source tag is `"scrapecreators"` (the spec's `"scraping"` value is
not what the code writes); when the official lookup succeeds the
ScrapeCreators metadata endpoint is never called and the tag is
`"youtube_api"` (not `"official"`). -/
theorem metadata_fallback_amended (w : YTWorld) (url : String) :
    (w.youtube_api_key = "" →
      YTEvent.officialCall ∉ (analyze_youtube w url).2 ∧
      ∀ d, w.scrapeMeta 1 = .ok d →
        (analyze_youtube w url).1.metadata_source = some "scrapecreators" ∧
        YTEvent.scrapeMetaCall ∈ (analyze_youtube w url).2) ∧
    (∀ m, (get_youtube_metadata w url).1 = some m →
      YTEvent.scrapeMetaCall ∉ (analyze_youtube w url).2 ∧
      (analyze_youtube w url).1.metadata_source = some "youtube_api") := by
  constructor
  · intro hk
    have hgm : get_youtube_metadata w url = (none, []) := by
      rw [get_youtube_metadata, if_pos hk]
    constructor
    · cases hs : w.scrapeMeta 1 with
      | error e =>
        rw [analyze_youtube_meta_none_error hgm hs]
        simp
      | ok d =>
        rw [analyze_youtube_meta_none_ok hgm hs, assembleSuccess_events]
        cases hb : (extract_youtube_video_id url).isSome <;> simp
    · intro d hd
      rw [analyze_youtube_meta_none_ok hgm hd]
      refine ⟨assembleSuccess_source _ _ _ _ _ _ _ _ _ _ _ _ _, ?_⟩
      rw [assembleSuccess_events]
      cases hb : (extract_youtube_video_id url).isSome <;> simp
  · intro m hm
    rcases hgm : get_youtube_metadata w url with ⟨mo, ev0⟩
    rw [hgm] at hm
    simp at hm
    subst hm
    have hev2 : ev0 = [] ∨ ev0 = [YTEvent.officialCall] := by
      have := get_youtube_metadata_events w url
      rw [hgm] at this
      simpa using this
    rw [analyze_youtube_meta_some hgm]
    refine ⟨?_, assembleSuccess_source _ _ _ _ _ _ _ _ _ _ _ _ _⟩
    rw [assembleSuccess_events]
    rcases hev2 with h0 | h0 <;> subst h0 <;>
      cases hb : (extract_youtube_video_id url).isSome <;> simp

/-- C6 (amended): the official metadata lookup is made at most once per
request (exactly once when the credential is configured and a video id is
extractable) and is never retried; the ScrapeCreators metadata fallback,
when invoked, is attempted exactly once — it is not retried, on transient
network failures or otherwise — and it is not invoked at all when the
official lookup succeeds. -/
theorem metadata_attempt_counts (w : YTWorld) (url : String) :
    (analyze_youtube w url).2.count YTEvent.officialCall ≤ 1 ∧
    (analyze_youtube w url).2.count YTEvent.scrapeMetaCall ≤ 1 ∧
    ((get_youtube_metadata w url).1 = none →
      (analyze_youtube w url).2.count YTEvent.scrapeMetaCall = 1) ∧
    (∀ m, (get_youtube_metadata w url).1 = some m →
      (analyze_youtube w url).2.count YTEvent.scrapeMetaCall = 0) := by
  rcases hgm : get_youtube_metadata w url with ⟨mo, ev0⟩
  have hev2 : ev0 = [] ∨ ev0 = [YTEvent.officialCall] := by
    have := get_youtube_metadata_events w url
    rw [hgm] at this
    simpa using this
  cases mo with
  | some m =>
    rw [analyze_youtube_meta_some hgm, assembleSuccess_events]
    refine ⟨?_, ?_, ?_, ?_⟩
    · rcases hev2 with h0 | h0 <;> subst h0 <;>
        cases hb : (extract_youtube_video_id url).isSome <;>
        simp [List.count_cons, ytevent_beq]
    · rcases hev2 with h0 | h0 <;> subst h0 <;>
        cases hb : (extract_youtube_video_id url).isSome <;>
        simp [List.count_cons, ytevent_beq]
    · intro hnone
      simp at hnone
    · intro m2 _
      rcases hev2 with h0 | h0 <;> subst h0 <;>
        cases hb : (extract_youtube_video_id url).isSome <;>
        simp [List.count_cons, ytevent_beq]
  | none =>
    cases hs : w.scrapeMeta 1 with
    | error e =>
      rw [analyze_youtube_meta_none_error hgm hs]
      refine ⟨?_, ?_, ?_, ?_⟩
      · rcases hev2 with h0 | h0 <;> subst h0 <;> simp [List.count_cons, ytevent_beq]
      · rcases hev2 with h0 | h0 <;> subst h0 <;> simp [List.count_cons, ytevent_beq]
      · intro _
        rcases hev2 with h0 | h0 <;> subst h0 <;> simp [List.count_cons, ytevent_beq]
      · intro m2 hm2
        simp at hm2
    | ok d =>
      rw [analyze_youtube_meta_none_ok hgm hs, assembleSuccess_events]
      refine ⟨?_, ?_, ?_, ?_⟩
      · rcases hev2 with h0 | h0 <;> subst h0 <;>
          cases hb : (extract_youtube_video_id url).isSome <;>
          simp [List.count_cons, ytevent_beq]
      · rcases hev2 with h0 | h0 <;> subst h0 <;>
          cases hb : (extract_youtube_video_id url).isSome <;>
          simp [List.count_cons, ytevent_beq]
      · intro _
        rcases hev2 with h0 | h0 <;> subst h0 <;>
          cases hb : (extract_youtube_video_id url).isSome <;>
          simp [List.count_cons, ytevent_beq]
      · intro m2 hm2
        simp at hm2

/-- A fixed fallback payload used by the concrete worlds below. -/
def sampleScrapeData : ScrapeVideoData :=
  ⟨"A title", "A description", "https://thumb", "A channel", 10, 2, 1, .secs 60⟩

def sampleUrl : String := "https://www.youtube.com/watch?v=dQw4w9WgXcQ"

/-- A run with no official credential and a succeeding fallback. -/
def unconfiguredWorld : YTWorld :=
  { youtube_api_key := ""
    officialApi := none
    scrapeMeta := fun _ => .ok sampleScrapeData
    transcriptOutcome := .ok (none, none)
    framesOutcome := .ok ⟨none, none, 0⟩ }

/-- A run whose first fallback attempt times out while a second attempt
would have succeeded. -/
def timeoutWorld : YTWorld :=
  { youtube_api_key := ""
    officialApi := none
    scrapeMeta := fun k =>
      if k = 1 then .error ⟨"Request timed out", .timeout⟩ else .ok sampleScrapeData
    transcriptOutcome := .ok (none, none)
    framesOutcome := .ok ⟨none, none, 0⟩ }

/-- Witness for `analyze_youtube_failure_semantics`: with no credential and
a raising fallback, the enrichment stages are not run. -/
theorem analyze_youtube_failure_semantics_witness :
    (get_youtube_metadata timeoutWorld sampleUrl).1 = none ∧
    (analyze_youtube timeoutWorld sampleUrl).1.error = some "Request timed out" ∧
    YTEvent.transcriptStage ∉ (analyze_youtube timeoutWorld sampleUrl).2 := by
  refine ⟨rfl, ?_, ?_⟩
  · exact (analyze_youtube_failure_semantics timeoutWorld sampleUrl).2.1
      ⟨"Request timed out", .timeout⟩ rfl rfl
  · exact ((analyze_youtube_failure_semantics timeoutWorld sampleUrl).2.2.1
      ⟨"Request timed out", .timeout⟩ rfl rfl).1

/-- C2 (counterexample): with the official credential unconfigured and a
succeeding fallback, the returned record's metadata-source tag is
`"scrapecreators"`, not the `"scraping"` value the claim states. -/
theorem metadata_source_tag_counterexample :
    (analyze_youtube unconfiguredWorld sampleUrl).1.metadata_source =
      some "scrapecreators" ∧
    ¬ (analyze_youtube unconfiguredWorld sampleUrl).1.metadata_source =
      some "scraping" := by
  have h1 : (analyze_youtube unconfiguredWorld sampleUrl).1.metadata_source =
      some "scrapecreators" := rfl
  refine ⟨h1, ?_⟩
  rw [h1]
  decide

/-- Witness for `metadata_fallback_amended` on the unconfigured world. -/
theorem metadata_fallback_amended_witness :
    unconfiguredWorld.youtube_api_key = "" ∧
    (analyze_youtube unconfiguredWorld sampleUrl).1.metadata_source =
      some "scrapecreators" := by
  refine ⟨rfl, ?_⟩
  exact (((metadata_fallback_amended unconfiguredWorld sampleUrl).1 rfl).2
    sampleScrapeData rfl).1

/-- C6 (counterexample): the first fallback attempt fails with a transient
network timeout and a second attempt would have succeeded, yet exactly one
ScrapeCreators metadata call is made and the request fails — the fallback
is not retried. -/
theorem scrape_fallback_not_retried_counterexample :
    timeoutWorld.scrapeMeta 1 = .error ⟨"Request timed out", .timeout⟩ ∧
    isTransient FailKind.timeout = true ∧
    timeoutWorld.scrapeMeta 2 = .ok sampleScrapeData ∧
    (analyze_youtube timeoutWorld sampleUrl).2.count YTEvent.scrapeMetaCall = 1 ∧
    (analyze_youtube timeoutWorld sampleUrl).1.success = false := by
  exact ⟨rfl, rfl, rfl, rfl, rfl⟩

/-- Witness for `metadata_attempt_counts` on the timeout world. -/
theorem metadata_attempt_counts_witness :
    (get_youtube_metadata timeoutWorld sampleUrl).1 = none ∧
    (analyze_youtube timeoutWorld sampleUrl).2.count YTEvent.scrapeMetaCall = 1 := by
  refine ⟨rfl, ?_⟩
  exact (metadata_attempt_counts timeoutWorld sampleUrl).2.2.1 rfl

/-! ## Balance debit (`spend_tokens`, supabase.py) -/

/-- The dictionary `spend_tokens` returns. -/
structure SpendResult where
  success : Bool
  error : Option String
  charged : ℚ
deriving DecidableEq, Repr

/-- `spend_tokens` (supabase.py lines 52-103), with the outcome of the
balance check (`check_balance` may raise — it raises on any non-200
response — or report a boolean) and the outcome of the debit-RPC POST (an
`Except.error` models the HTTP call raising; an `Except.ok status` is a
completed response with that HTTP status code).  A non-2xx RPC status is
only logged (lines 89-91): the function still returns
`success=True, charged=amount`.  The outer `except` catches a raise from
either call and prefixes the message with `"Balance check failed: "`. -/
def spend_tokens (checkOutcome : Except String Bool)
    (rpcOutcome : Except String Nat) (amount : ℚ) : SpendResult :=
  match checkOutcome with
  | .error e => ⟨false, some ("Balance check failed: " ++ e), 0⟩
  | .ok false => ⟨false, some "Insufficient balance", 0⟩
  | .ok true =>
    match rpcOutcome with
    | .error e => ⟨false, some ("Balance check failed: " ++ e), 0⟩
    | .ok _status => ⟨true, none, amount⟩

/-- C10: whenever the preliminary balance check reports sufficient funds
and the debit RPC completes with ANY HTTP status — 2xx or not, for example
404 when the stored procedure does not exist — `spend_tokens` reports
`success=True` with `charged = amount`; the status is never inspected
beyond logging, so a successful charge can be reported without any balance
having been debited. -/
theorem spend_tokens_ignores_rpc_status (check : Except String Bool)
    (rpc : Except String Nat) (amount : ℚ)
    (hcheck : check = .ok true) (hrpc : ∃ s, rpc = .ok s) :
    spend_tokens check rpc amount = ⟨true, none, amount⟩ := by
  obtain ⟨s, hs⟩ := hrpc
  subst hcheck
  subst hs
  rfl

/-- Witness for `spend_tokens_ignores_rpc_status`: the RPC answers 404 (the
stored procedure is missing), yet the 0.10 charge is reported as
successful. -/
theorem spend_tokens_ignores_rpc_status_witness :
    (Except.ok true : Except String Bool) = .ok true ∧
    spend_tokens (.ok true) (.ok 404) (1 / 10) = ⟨true, none, 1 / 10⟩ := by
  refine ⟨rfl, ?_⟩
  exact spend_tokens_ignores_rpc_status (.ok true) (.ok 404) (1 / 10) rfl ⟨404, rfl⟩

end Postgen
